import Mathlib

/-!
Shallow embedding of the Wheelly robot motion-control core
(`src/Arduino/Wheelly`), over exact rational arithmetic.

Conventions used throughout:
* `float` values are modelled as `ℚ` (exact arithmetic standing in for the
  target's IEEE floats); the constant `PI` of the source is abstracted as a
  parameter `p` with the hypothesis `0 < p`, since `π` is irrational.
* `unsigned long` (32-bit) clock arithmetic is modelled on `ℕ` with explicit
  reduction modulo `2 ^ 32` where the code adds, and with `usub` (32-bit
  unsigned subtraction) where the code subtracts.
* Hardware calls (`analogWrite`, `digitalRead`, `sinf`, `cosf`) are modelled
  as explicit state fields, explicit inputs, or function parameters.
-/

/-- The Arduino `min` macro: `#define min(a,b) ((a)<(b)?(a):(b))`. -/
def amin (a b : ℚ) : ℚ := if a < b then a else b

/-- The Arduino `max` macro: `#define max(a,b) ((a)>(b)?(a):(b))`. -/
def amax (a b : ℚ) : ℚ := if a > b then a else b

theorem amin_eq_min (a b : ℚ) : amin a b = min a b := by
  unfold amin
  rcases lt_trichotomy a b with h | h | h
  · rw [if_pos h, min_eq_left (le_of_lt h)]
  · rw [h, if_neg (lt_irrefl b), min_self]
  · rw [if_neg (not_lt.mpr (le_of_lt h)), min_eq_right (le_of_lt h)]

theorem amax_eq_max (a b : ℚ) : amax a b = max a b := by
  unfold amax
  rcases lt_trichotomy a b with h | h | h
  · rw [if_neg (not_lt.mpr (le_of_lt h)), max_eq_right (le_of_lt h)]
  · rw [h, if_neg (lt_irrefl b), max_self]
  · rw [if_pos h, max_eq_left (le_of_lt h)]

/-- 2^32, the modulus of `unsigned long` arithmetic on the target. -/
def M32 : ℕ := 2 ^ 32

/-- 32-bit unsigned subtraction `a - b` for `a b < M32`
(the wrap-around semantics of `unsigned long` subtraction in C). -/
def usub (a b : ℕ) : ℕ := (a + M32 - b) % M32

theorem usub_of_le {a b : ℕ} (hba : b ≤ a) (ha : a < M32) : usub a b = a - b := by
  unfold usub M32 at *
  omega

/-! ## `normalRad` (`src/Arduino/Wheelly/Utils.cpp`)

```c
float normalRad(float rad) {
  while (rad < -PI) { rad += PI * 2; }
  while (rad >= PI) { rad -= PI * 2; }
  return rad;
}
```
The two `while` loops are embedded as the well-founded recursions `upRad`
and `downRad`; `p` stands for the constant `PI` (any positive value). -/

/-- First loop of `normalRad`: `while (rad < -PI) rad += PI * 2`. -/
def upRad (p : ℚ) (hp : 0 < p) (rad : ℚ) : ℚ :=
  if h : rad < -p then upRad p hp (rad + p * 2) else rad
termination_by (⌈(-p - rad) / (p * 2)⌉).toNat
decreasing_by
  have h2p : (0 : ℚ) < p * 2 := by linarith
  have hq : (0 : ℚ) < (-p - rad) / (p * 2) := by
    apply div_pos _ h2p
    linarith
  have hceil : 0 < ⌈(-p - rad) / (p * 2)⌉ := Int.ceil_pos.mpr hq
  have harg : (-p - (rad + p * 2)) / (p * 2) = (-p - rad) / (p * 2) - 1 := by
    field_simp
    ring
  rw [harg, Int.ceil_sub_one]
  omega

/-- Second loop of `normalRad`: `while (rad >= PI) rad -= PI * 2`. -/
def downRad (p : ℚ) (hp : 0 < p) (rad : ℚ) : ℚ :=
  if h : p ≤ rad then downRad p hp (rad - p * 2) else rad
termination_by (⌈(rad - p) / (p * 2)⌉ + 1).toNat
decreasing_by
  have h2p : (0 : ℚ) < p * 2 := by linarith
  have hq : (0 : ℚ) ≤ (rad - p) / (p * 2) := by
    apply div_nonneg _ (le_of_lt h2p)
    linarith
  have hceil : 0 ≤ ⌈(rad - p) / (p * 2)⌉ := Int.ceil_nonneg hq
  have harg : (rad - p * 2 - p) / (p * 2) = (rad - p) / (p * 2) - 1 := by
    field_simp
    ring
  rw [harg, Int.ceil_sub_one]
  omega

/-- `normalRad` from `Utils.cpp`: both loops in sequence. -/
def normalRad (p : ℚ) (hp : 0 < p) (rad : ℚ) : ℚ :=
  downRad p hp (upRad p hp rad)

theorem upRad_ge (p : ℚ) (hp : 0 < p) (rad : ℚ) : -p ≤ upRad p hp rad := by
  induction rad using upRad.induct p hp with
  | case1 rad h ih =>
      rw [upRad, dif_pos h]
      exact ih
  | case2 rad h =>
      rw [upRad, dif_neg h]
      linarith

theorem upRad_lt (p : ℚ) (hp : 0 < p) (rad : ℚ) (hr : rad < p) :
    upRad p hp rad < p := by
  induction rad using upRad.induct p hp with
  | case1 rad h ih =>
      rw [upRad, dif_pos h]
      exact ih (by linarith)
  | case2 rad h =>
      rw [upRad, dif_neg h]
      exact hr

theorem upRad_id (p : ℚ) (hp : 0 < p) (rad : ℚ) (hr : -p ≤ rad) :
    upRad p hp rad = rad := by
  rw [upRad, dif_neg (by linarith)]

theorem downRad_lt (p : ℚ) (hp : 0 < p) (rad : ℚ) : downRad p hp rad < p := by
  induction rad using downRad.induct p hp with
  | case1 rad h ih =>
      rw [downRad, dif_pos h]
      exact ih
  | case2 rad h =>
      rw [downRad, dif_neg h]
      linarith

theorem downRad_ge (p : ℚ) (hp : 0 < p) (rad : ℚ) (hr : -p ≤ rad) :
    -p ≤ downRad p hp rad := by
  induction rad using downRad.induct p hp with
  | case1 rad h ih =>
      rw [downRad, dif_pos h]
      exact ih (by linarith)
  | case2 rad h =>
      rw [downRad, dif_neg h]
      exact hr

theorem downRad_id (p : ℚ) (hp : 0 < p) (rad : ℚ) (hr : rad < p) :
    downRad p hp rad = rad := by
  rw [downRad, dif_neg (by linarith)]

theorem normalRad_mem (p : ℚ) (hp : 0 < p) (rad : ℚ) :
    -p ≤ normalRad p hp rad ∧ normalRad p hp rad < p := by
  unfold normalRad
  exact ⟨downRad_ge p hp _ (upRad_ge p hp rad), downRad_lt p hp _⟩

theorem normalRad_id (p : ℚ) (hp : 0 < p) (rad : ℚ)
    (h1 : -p ≤ rad) (h2 : rad < p) : normalRad p hp rad = rad := by
  unfold normalRad
  rw [upRad_id p hp rad h1, downRad_id p hp rad h2]

/-- C2 counterexample input: at `rad = p` (the source's `PI` itself, here
instantiated at `p = 3`), the second loop fires once and returns `-p`,
which is outside the claimed half-open interval `(-p, p]`. -/
theorem normalRad_at_pi_escapes_Ioc :
    normalRad 3 (by norm_num) 3 = -3 ∧ ¬ (-(3 : ℚ) < normalRad 3 (by norm_num) 3) := by
  have h : normalRad 3 (by norm_num : (0:ℚ) < 3) 3 = -3 := by
    unfold normalRad
    rw [upRad_id 3 (by norm_num) 3 (by norm_num)]
    rw [downRad, dif_pos (by norm_num)]
    rw [downRad, dif_neg (by norm_num)]
    norm_num
  refine ⟨h, ?_⟩
  rw [h]
  norm_num

/-- C2 (amended): for every positive `p` (standing for `PI`) and every
angle `rad`, `normalRad` returns a value in the half-open interval
`[-p, p)` (closed at `-p`, open at `p` — not `(-p, p]` as claimed), and
`normalRad` is idempotent. -/
theorem normalRad_range_and_idempotent (p : ℚ) (hp : 0 < p) (rad : ℚ) :
    (-p ≤ normalRad p hp rad ∧ normalRad p hp rad < p) ∧
      normalRad p hp (normalRad p hp rad) = normalRad p hp rad := by
  obtain ⟨h1, h2⟩ := normalRad_mem p hp rad
  exact ⟨⟨h1, h2⟩, normalRad_id p hp _ h1 h2⟩

/-- C2 witness: the amended theorem applied at `p = 3`, `rad = 100`. -/
theorem normalRad_range_and_idempotent_witness :
    (0 : ℚ) < 3 ∧
      ((-3 ≤ normalRad 3 (by norm_num) 100 ∧ normalRad 3 (by norm_num) 100 < 3) ∧
        normalRad 3 (by norm_num) (normalRad 3 (by norm_num) 100) =
          normalRad 3 (by norm_num) 100) :=
  ⟨by norm_num, normalRad_range_and_idempotent 3 (by norm_num) 100⟩

/-! ## `Fuzzy` and `fuzzyPositive` (`src/Arduino/Wheelly/Fuzzy.cpp`)

```c
float fuzzyPositive(float value, float range) { return min(max(value / range, 0), 1); }
Fuzzy::Fuzzy() : _sum(0), _scale(0) {}
void Fuzzy::add(float value, float weight) { _sum += value * weight; _scale += weight; }
void Fuzzy::reset() { _sum = 0; _scale = 0; }
const float Fuzzy::defuzzy() const { return _sum / _scale; }
```
-/

structure Fuzzy where
  sum : ℚ
  scale : ℚ
deriving DecidableEq

/-- `Fuzzy::Fuzzy()`: both accumulators start at 0. -/
def Fuzzy.init : Fuzzy := ⟨0, 0⟩

/-- `Fuzzy::add`. -/
def Fuzzy.add (f : Fuzzy) (value weight : ℚ) : Fuzzy :=
  ⟨f.sum + value * weight, f.scale + weight⟩

/-- `Fuzzy::reset`. -/
def Fuzzy.reset (_ : Fuzzy) : Fuzzy := ⟨0, 0⟩

/-- `Fuzzy::defuzzy`: the source divides unconditionally — there is no
zero-weight check and no error path (in exact arithmetic the division by a
zero `scale` yields the junk value 0; on the target it yields a float
NaN/infinity). -/
def Fuzzy.defuzzy (f : Fuzzy) : ℚ := f.sum / f.scale

inductive DefuzzyError where
  | divisionByZero
deriving DecidableEq

/-- Modelled from the spec: `defuzzy() = weightedSum / weightTotal` that
"fails with DivisionByZero if no term was added with nonzero total weight".
The source `Fuzzy::defuzzy` contains no such check; this definition follows
the spec's words and exists only to compare the claimed behavior with the
code's. -/
def defuzzyChecked (f : Fuzzy) : Except DefuzzyError ℚ :=
  if f.scale = 0 then Except.error DefuzzyError.divisionByZero
  else Except.ok (f.sum / f.scale)

/-- `fuzzyPositive` from `Fuzzy.cpp` (`min`/`max` are the Arduino macros). -/
def fuzzyPositive (value range : ℚ) : ℚ := amin (amax (value / range) 0) 1

/-! ### The two fuzzy blends of `MotionCtrl::handleMotion`
(`src/Arduino/Wheelly/MotionCtr.cpp`, lines 161-171). -/

/-- The clockwise-speed blend: `fuzzy.add(1, isCw); fuzzy.add(-1, isCcw);
fuzzy.add(0, 1 - max(isCw, isCcw));` starting from a fresh `Fuzzy`. -/
def cwBlend (isCw isCcw : ℚ) : Fuzzy :=
  ((Fuzzy.init.add 1 isCw).add (-1) isCcw).add 0 (1 - amax isCw isCcw)

/-- The linear-speed blend: `fuzzy.reset(); fuzzy.add(_speed, isLin);
fuzzy.add(0, 1 - isLin);`. -/
def linBlend (f : Fuzzy) (speed isLin : ℚ) : Fuzzy :=
  ((f.reset).add speed isLin).add 0 (1 - isLin)

theorem fuzzyPositive_nonneg (value range : ℚ) : 0 ≤ fuzzyPositive value range := by
  unfold fuzzyPositive
  rw [amin_eq_min, amax_eq_max]
  have h1 : (0 : ℚ) ≤ max (value / range) 0 := le_max_right _ _
  exact le_min h1 (by norm_num)

theorem fuzzyPositive_le_one (value range : ℚ) : fuzzyPositive value range ≤ 1 := by
  unfold fuzzyPositive
  rw [amin_eq_min]
  exact min_le_right _ _

/-- C7: for every `turn` and every pair of membership ranges, the weight
totals accumulated before the two `defuzzy()` calls of
`MotionCtrl::handleMotion` are `1 + min(isCw, isCcw) ≥ 1` and exactly `1`
respectively; both are nonzero, so the division-by-zero branch of
defuzzification is unreachable from the control law. -/
theorem handleMotion_defuzzy_weights (turn onRange linRange speed : ℚ) :
    (cwBlend (fuzzyPositive turn onRange) (fuzzyPositive (-turn) onRange)).scale =
        1 + min (fuzzyPositive turn onRange) (fuzzyPositive (-turn) onRange) ∧
      1 ≤ (cwBlend (fuzzyPositive turn onRange) (fuzzyPositive (-turn) onRange)).scale ∧
      (cwBlend (fuzzyPositive turn onRange) (fuzzyPositive (-turn) onRange)).scale ≠ 0 ∧
      (linBlend (cwBlend (fuzzyPositive turn onRange) (fuzzyPositive (-turn) onRange))
          speed (1 - fuzzyPositive |turn| linRange)).scale = 1 ∧
      (linBlend (cwBlend (fuzzyPositive turn onRange) (fuzzyPositive (-turn) onRange))
          speed (1 - fuzzyPositive |turn| linRange)).scale ≠ 0 := by
  set a := fuzzyPositive turn onRange with ha
  set b := fuzzyPositive (-turn) onRange with hb
  have hcw : (cwBlend a b).scale = 1 + min a b := by
    show 0 + a + b + (1 - amax a b) = 1 + min a b
    rw [amax_eq_max]
    have := min_add_max a b
    linarith
  have hmin : 0 ≤ min a b :=
    le_min (fuzzyPositive_nonneg _ _) (fuzzyPositive_nonneg _ _)
  have hlin : (linBlend (cwBlend a b) speed (1 - fuzzyPositive |turn| linRange)).scale = 1 := by
    show 0 + (1 - fuzzyPositive |turn| linRange) + (1 - (1 - fuzzyPositive |turn| linRange)) = 1
    ring
  refine ⟨hcw, by rw [hcw]; linarith, ?_, hlin, by rw [hlin]; norm_num⟩
  rw [hcw]
  intro hzero
  linarith

/-- C8 counterexample: at the concrete zero-weight state (a fresh `Fuzzy`,
no term added), the source's `defuzzy` does not fail — it unconditionally
performs the division and produces a plain value (the exact-arithmetic junk
value 0; NaN on the float target), while the spec-modelled checked
defuzzification reports `DivisionByZero` there. -/
theorem defuzzy_zero_weight_no_error :
    Fuzzy.init.scale = 0 ∧ Fuzzy.defuzzy Fuzzy.init = 0 ∧
      defuzzyChecked Fuzzy.init = Except.error DefuzzyError.divisionByZero := by
  refine ⟨rfl, ?_, rfl⟩
  show (0 : ℚ) / 0 = 0
  norm_num

/-- C8 (amended): `Fuzzy::defuzzy` reports no error at zero total weight:
after any sequence of `add` calls all of whose weights are zero, the total
weight is 0, yet `defuzzy` silently returns the division-by-zero junk value
(0 in exact arithmetic, NaN/garbage on the float target) instead of the
`DivisionByZero` error that the spec-modelled `defuzzyChecked` reports. -/
theorem defuzzy_zero_weight_silent (l : List (ℚ × ℚ))
    (hw : ∀ vw ∈ l, vw.2 = 0) :
    (l.foldl (fun f vw => f.add vw.1 vw.2) Fuzzy.init).scale = 0 ∧
      Fuzzy.defuzzy (l.foldl (fun f vw => f.add vw.1 vw.2) Fuzzy.init) = 0 ∧
      defuzzyChecked (l.foldl (fun f vw => f.add vw.1 vw.2) Fuzzy.init) =
        Except.error DefuzzyError.divisionByZero := by
  have key : ∀ (m : List (ℚ × ℚ)) (f : Fuzzy), (∀ vw ∈ m, vw.2 = 0) →
      (m.foldl (fun f vw => f.add vw.1 vw.2) f) = f := by
    intro m
    induction m with
    | nil => intro f _; rfl
    | cons head tail ih =>
        intro f hm
        have hhead : head.2 = 0 := hm head (List.mem_cons_self _ _)
        have htail : ∀ vw ∈ tail, vw.2 = 0 := fun vw hvw => hm vw (List.mem_cons_of_mem _ hvw)
        have hstep : f.add head.1 head.2 = f := by
          unfold Fuzzy.add
          rw [hhead]
          simp
        calc ((head :: tail).foldl (fun f vw => f.add vw.1 vw.2) f)
            = tail.foldl (fun f vw => f.add vw.1 vw.2) (f.add head.1 head.2) := rfl
          _ = tail.foldl (fun f vw => f.add vw.1 vw.2) f := by rw [hstep]
          _ = f := ih f htail
  rw [key l Fuzzy.init hw]
  refine ⟨rfl, ?_, rfl⟩
  show (0 : ℚ) / 0 = 0
  norm_num

/-- C8 witness: the amended theorem applied to the concrete zero-weight
sequence `[(5, 0), (7, 0)]`. -/
theorem defuzzy_zero_weight_silent_witness :
    (∀ vw ∈ [((5 : ℚ), (0 : ℚ)), (7, 0)], vw.2 = 0) ∧
      (([((5 : ℚ), (0 : ℚ)), (7, 0)].foldl (fun f vw => f.add vw.1 vw.2) Fuzzy.init).scale = 0 ∧
        Fuzzy.defuzzy ([((5 : ℚ), (0 : ℚ)), (7, 0)].foldl (fun f vw => f.add vw.1 vw.2) Fuzzy.init) = 0 ∧
        defuzzyChecked ([((5 : ℚ), (0 : ℚ)), (7, 0)].foldl (fun f vw => f.add vw.1 vw.2) Fuzzy.init) =
          Except.error DefuzzyError.divisionByZero) :=
  ⟨by decide, defuzzy_zero_weight_silent [(5, 0), (7, 0)] (by decide)⟩

/-! ## `MotorCtrl::func` (`src/Arduino/Wheelly/MotorCtrl.cpp`, lines 46-66;
identical in `src/Arduino/WheellyMeasures/MotorCtrl.cpp`, lines 49-59)

```c
float MotorCtrl::func(float x) {
  int i = NO_POINTS - 2;                        // NO_POINTS = 5, so i = 3
  for (int j = 1; j < NO_POINTS - 2; j++) {     // scans only j = 1, 2
    if (x < xx[j]) { i = j - 1; break; }
  }
  float result = (x - xx[i]) * (yy[i + 1] - yy[i]) / (xx[i + 1] - xx[i]) + yy[i];
  return min(max(-1, result), 1);
}
```
The loop bound is `j < NO_POINTS - 2 = 3`, so the scan checks only the
interior points `xx[1]` and `xx[2]` and the selected segment index is one
of `{0, 1, 3}` — segment 2 (between `xx[2]` and `xx[3]`) is never selected.
`funcIndex` unrolls that loop literally. -/

/-- The unrolled segment scan of `MotorCtrl::func`: starts at
`i = NO_POINTS - 2 = 3` and overrides it with `j - 1` for the first
`j ∈ {1, 2}` with `x < xx[j]` (the loop stops before checking `xx[3]`). -/
def funcIndex (xx : Fin 5 → ℚ) (x : ℚ) : Fin 4 :=
  if x < xx 1 then 0 else if x < xx 2 then 1 else 3

/-- `MotorCtrl::func`: linear interpolation on the selected segment,
clamped to `[-1, 1]`. -/
def MotorCtrl.func (xx yy : Fin 5 → ℚ) (x : ℚ) : ℚ :=
  let i := funcIndex xx x
  let result :=
    (x - xx i.castSucc) * (yy i.succ - yy i.castSucc) / (xx i.succ - xx i.castSucc) +
      yy i.castSucc
  amin (amax (-1) result) 1

/-- The default correction table `{-1, -0.5, 0, 0.5, 1}` (both `_x` and
`_y` of a freshly constructed `MotorCtrl`). -/
def defaultCorrection : Fin 5 → ℚ := ![-1, -1/2, 0, 1/2, 1]

/-- The saturating `y`-table `{-1, -1, 0, 1, 1}` of the C1 scenario. -/
def saturatingY : Fin 5 → ℚ := ![-1, -1, 0, 1, 1]

/-- A non-decreasing `y`-table exposing the skipped segment 2. -/
def bumpY : Fin 5 → ℚ := ![0, 0, 9/10, 91/100, 1]

/-- Piecewise characterization of `MotorCtrl::func`: the scan selects
segment 0 for `x < xx[1]`, segment 1 for `xx[1] ≤ x < xx[2]`, and
segment 3 (the last segment's line) for every `x ≥ xx[2]` — segment 2 is
never selected because the loop bound `j < NO_POINTS - 2` skips the check
against `xx[3]`. -/
theorem func_eval (xx yy : Fin 5 → ℚ) (x : ℚ) :
    MotorCtrl.func xx yy x =
      if x < xx 1 then amin (amax (-1) ((x - xx 0) * (yy 1 - yy 0) / (xx 1 - xx 0) + yy 0)) 1
      else if x < xx 2 then amin (amax (-1) ((x - xx 1) * (yy 2 - yy 1) / (xx 2 - xx 1) + yy 1)) 1
      else amin (amax (-1) ((x - xx 3) * (yy 4 - yy 3) / (xx 4 - xx 3) + yy 3)) 1 := by
  have c0 : (Fin.castSucc (0 : Fin 4)) = (0 : Fin 5) := by decide
  have c1 : (Fin.castSucc (1 : Fin 4)) = (1 : Fin 5) := by decide
  have c3 : (Fin.castSucc (3 : Fin 4)) = (3 : Fin 5) := by decide
  have s0 : (Fin.succ (0 : Fin 4)) = (1 : Fin 5) := by decide
  have s1 : (Fin.succ (1 : Fin 4)) = (2 : Fin 5) := by decide
  have s3 : (Fin.succ (3 : Fin 4)) = (4 : Fin 5) := by decide
  unfold MotorCtrl.func funcIndex
  split_ifs with h1 h2
  · simp only [c0, s0]
  · simp only [c1, s1]
  · simp only [c3, s3]

/-- C1: with the identity table `correct(0.37)` does return `0.37`
(the three pieces of the identity table are collinear, masking the skipped
segment), but with the saturating table `{-1,-0.5,0,0.5,1} → {-1,-1,0,1,1}`
the code returns `correct(0.25) = 1`, not the `0.5` the claim states:
`0.25 ∈ [x_2, x_3)` but the scan never selects segment 2 — it falls through
to segment 3, whose line `y = 1` it then evaluates at `0.25`. -/
theorem func_saturating_failing_input :
    MotorCtrl.func defaultCorrection defaultCorrection (37/100) = 37/100 ∧
      MotorCtrl.func defaultCorrection saturatingY (1/4) = 1 ∧
      ¬ MotorCtrl.func defaultCorrection saturatingY (1/4) = 1/2 := by
  refine ⟨?_, ?_, ?_⟩ <;> rw [func_eval] <;>
    norm_num [defaultCorrection, saturatingY, amin, amax]

/-- C3: for the strictly increasing table `x = {-1,-1/2,0,1/2,1}` with
non-decreasing `y = {0, 0, 9/10, 91/100, 1}`, the code violates both parts
of the claim: at the control point `x_2 = 0` it returns `41/50 ≠ y_2 = 9/10`
(segment 2 is never selected, so the value at `x_2` comes from segment 3's
line), and it is not monotonic: `correct(-1/100) = 441/500 > 41/50 =
correct(0)`. -/
theorem func_control_point_monotonicity_violation :
    (defaultCorrection 0 < defaultCorrection 1 ∧ defaultCorrection 1 < defaultCorrection 2 ∧
      defaultCorrection 2 < defaultCorrection 3 ∧ defaultCorrection 3 < defaultCorrection 4) ∧
    (bumpY 0 ≤ bumpY 1 ∧ bumpY 1 ≤ bumpY 2 ∧ bumpY 2 ≤ bumpY 3 ∧ bumpY 3 ≤ bumpY 4) ∧
    MotorCtrl.func defaultCorrection bumpY 0 = 41/50 ∧
    bumpY 2 = 9/10 ∧
    ¬ MotorCtrl.func defaultCorrection bumpY 0 = bumpY 2 ∧
    MotorCtrl.func defaultCorrection bumpY (-1/100) = 441/500 ∧
    (-1/100 : ℚ) < 0 ∧
    MotorCtrl.func defaultCorrection bumpY 0 < MotorCtrl.func defaultCorrection bumpY (-1/100) := by
  have h0 : MotorCtrl.func defaultCorrection bumpY 0 = 41/50 := by
    rw [func_eval]
    norm_num [defaultCorrection, bumpY, amin, amax]
  have h1 : MotorCtrl.func defaultCorrection bumpY (-1/100) = 441/500 := by
    rw [func_eval]
    norm_num [defaultCorrection, bumpY, amin, amax]
  refine ⟨⟨?_, ?_, ?_, ?_⟩, ⟨?_, ?_, ?_, ?_⟩, h0, ?_, ?_, h1, ?_, ?_⟩ <;>
    (try rw [h0]) <;> (try rw [h1]) <;> norm_num [defaultCorrection, bumpY]

/-! ## `Timer` (`src/Arduino/Wheelly/Timer.cpp`)

State and operations of the cooperative software timer; the registered
callback is invoked after the state update and does not touch the timer's
own fields, so it is omitted from the state transition. All `unsigned long`
additions are reduced modulo `M32`. -/

structure Timer where
  interval : ℕ
  continuous : Bool
  next : ℕ
  counter : ℕ
  running : Bool
deriving DecidableEq

/-- `Timer::start(unsigned long timeout)`. -/
def Timer.start (t : Timer) (timeout : ℕ) : Timer :=
  { t with counter := 0, next := timeout, running := true }

/-- `Timer::start()` at clock value `now`: `start(millis() + _interval)`. -/
def Timer.startAt (t : Timer) (now : ℕ) : Timer :=
  t.start ((now + t.interval) % M32)

/-- `Timer::stop()`. -/
def Timer.stop (t : Timer) : Timer := { t with running := false }

/-- `Timer::restart()` at clock value `now`. -/
def Timer.restart (t : Timer) (now : ℕ) : Timer :=
  if t.running then { t with next := (now + t.interval) % M32 } else t

/-- `Timer::polling(unsigned long clockTime)`: fire when running and
`clockTime >= _next`; a firing increments `_counter` and either stops the
timer (one-shot) or advances `_next += _interval` (continuous). -/
def Timer.polling (t : Timer) (clockTime : ℕ) : Timer :=
  if t.running then
    if t.next ≤ clockTime then
      let t1 := { t with counter := (t.counter + 1) % M32 }
      if t1.continuous then { t1 with next := (t1.next + t1.interval) % M32 }
      else t1.stop
    else t
  else t

/-- `crossesAll t ts`: every poll in `ts` arrives at or past the deadline
current at its turn ("each call crosses the current deadline"). -/
def crossesAll (t : Timer) : List ℕ → Bool
  | [] => true
  | c :: rest => decide (t.next ≤ c) && crossesAll (t.polling c) rest

theorem pollingN_continuous (ts : List ℕ) (t : Timer)
    (hrun : t.running = true) (hcont : t.continuous = true)
    (hcross : crossesAll t ts = true)
    (hnext : t.next + ts.length * t.interval < M32)
    (hcount : t.counter + ts.length < M32) :
    (ts.foldl Timer.polling t).counter = t.counter + ts.length ∧
      (ts.foldl Timer.polling t).next = t.next + ts.length * t.interval ∧
      (ts.foldl Timer.polling t).running = true ∧
      (ts.foldl Timer.polling t).continuous = true ∧
      (ts.foldl Timer.polling t).interval = t.interval := by
  induction ts generalizing t with
  | nil => simpa using ⟨hrun, hcont⟩
  | cons c rest ih =>
      have hcross' := hcross
      unfold crossesAll at hcross'
      rw [Bool.and_eq_true, decide_eq_true_iff] at hcross'
      obtain ⟨hc, hrest⟩ := hcross'
      have hlen : rest.length + 1 = (c :: rest).length := rfl
      have hstep : t.polling c =
          { t with counter := t.counter + 1, next := t.next + t.interval } := by
        unfold Timer.polling
        rw [if_pos hrun, if_pos hc]
        simp only [hcont, if_pos]
        have hc1 : (t.counter + 1) % M32 = t.counter + 1 := by
          apply Nat.mod_eq_of_lt
          simp only [List.length_cons] at hcount
          omega
        have hn1 : (t.next + t.interval) % M32 = t.next + t.interval := by
          apply Nat.mod_eq_of_lt
          simp only [List.length_cons] at hnext
          nlinarith [Nat.le_add_left t.interval (t.next)]
        rw [hc1, hn1]
      have hfold : (c :: rest).foldl Timer.polling t = rest.foldl Timer.polling (t.polling c) := rfl
      rw [hfold, hstep]
      simp only [List.length_cons] at hnext hcount ⊢
      have := ih { t with counter := t.counter + 1, next := t.next + t.interval }
        hrun hcont (by rw [← hstep]; exact hrest)
        (by simp only []; nlinarith) (by simp only []; omega)
      simp only [] at this
      refine ⟨?_, ?_, this.2.2.1, this.2.2.2.1, this.2.2.2.2⟩
      · rw [this.1]; omega
      · rw [this.2.1]; ring

/-- C4: a continuous-mode timer with interval `I` started at `t0` has first
deadline `t0 + I`; after `N` polls that each cross the current deadline the
fire counter equals `N` and the stored deadline equals `t0 + I + N·I` —
each firing adds `I` to the previous deadline (`_next += _interval`), never
recomputing it from the poll's clock value. Stated below the 32-bit
wrap-around point (`t0 + I + N·I < 2^32`). -/
theorem timer_continuous_drift_free (t : Timer) (t0 : ℕ) (ts : List ℕ)
    (hI : 0 < t.interval) (hcont : t.continuous = true)
    (hcross : crossesAll (t.startAt t0) ts = true)
    (hov : t0 + t.interval + ts.length * t.interval < M32) :
    (ts.foldl Timer.polling (t.startAt t0)).counter = ts.length ∧
      (ts.foldl Timer.polling (t.startAt t0)).next =
        t0 + t.interval + ts.length * t.interval ∧
      (ts.foldl Timer.polling (t.startAt t0)).running = true := by
  have hstart : t.startAt t0 =
      { t with counter := 0, next := t0 + t.interval, running := true } := by
    unfold Timer.startAt Timer.start
    have : (t0 + t.interval) % M32 = t0 + t.interval := by
      apply Nat.mod_eq_of_lt
      omega
    rw [this]
  rw [hstart] at hcross ⊢
  have hmain := pollingN_continuous ts
    { t with counter := 0, next := t0 + t.interval, running := true }
    rfl hcont hcross (by simp only []; omega)
    (by simp only []; nlinarith)
  simp only [] at hmain
  exact ⟨by rw [hmain.1]; omega, hmain.2.1, hmain.2.2.1⟩

/-- C4 witness: interval 10, continuous, started at `t0 = 5` (first
deadline 15), three deadline-crossing polls at 15, 25, 40; afterwards the
counter is 3 and the deadline is `5 + 10 + 3·10 = 45`. -/
theorem timer_continuous_drift_free_witness :
    (0 < (10 : ℕ) ∧
      crossesAll ((Timer.mk 10 true 0 0 false).startAt 5) [15, 25, 40] = true ∧
      5 + 10 + [15, 25, 40].length * 10 < M32) ∧
      (([15, 25, 40].foldl Timer.polling ((Timer.mk 10 true 0 0 false).startAt 5)).counter =
          [15, 25, 40].length ∧
        ([15, 25, 40].foldl Timer.polling ((Timer.mk 10 true 0 0 false).startAt 5)).next =
          5 + 10 + [15, 25, 40].length * 10 ∧
        ([15, 25, 40].foldl Timer.polling ((Timer.mk 10 true 0 0 false).startAt 5)).running =
          true) :=
  ⟨⟨by decide, by decide, by decide⟩,
    timer_continuous_drift_free (Timer.mk 10 true 0 0 false) 5 [15, 25, 40]
      (by decide) rfl (by decide) (by decide)⟩

/-! ## `MotorSensor` (`src/Arduino/Wheelly/MotorSensor.cpp`)

The ring-buffer wheel-encoder revision: `SPEED_BUFFER_SIZE = 4`,
`STOP_TIME = 500`. `digitalRead` of the sensor pin is modelled as the
explicit `level` input of `polling`; the `onSample` callback does not touch
the sensor's own fields and is omitted. The `long` pulse counters are
modelled as `ℤ` (their 32-bit wrap is far beyond any reachable count and is
not modelled); `unsigned long` timestamps subtract through `usub`. -/

structure MotorSensor where
  pulse : Bool
  pulses : ℤ
  forward : Bool
  prevTime : ℕ
  index : Fin 4
  noSamples : ℕ
  timestamp : Fin 4 → ℕ
  pulsesBuf : Fin 4 → ℤ

/-- `_index++; if (_index >= SPEED_BUFFER_SIZE) _index = 0;`. -/
def nextIndex (i : Fin 4) : Fin 4 := ⟨(i.val + 1) % 4, Nat.mod_lt _ (by omega)⟩

/-- `MotorSensor::reset()` at clock value `now` (`_prevTime = millis()`). -/
def MotorSensor.reset (s : MotorSensor) (now : ℕ) : MotorSensor :=
  { s with forward := true, pulses := 0, noSamples := 0, index := 0, prevTime := now }

/-- `MotorSensor::setDirection(float speed)`. -/
def MotorSensor.setDirection (s : MotorSensor) (speed : ℚ) : MotorSensor :=
  if 0 < speed then { s with forward := true }
  else if speed < 0 then { s with forward := false }
  else s

/-- `MotorSensor::update(int dPulse, unsigned long clockTime)`: accumulate
the signed delta, store `(clockTime, _pulses)` at the write index, advance
the index modulo 4, and saturate the sample count at 4. -/
def MotorSensor.update (s : MotorSensor) (dPulse : ℤ) (clockTime : ℕ) : MotorSensor :=
  let pulses := s.pulses + dPulse
  { s with
    pulses := pulses
    timestamp := Function.update s.timestamp s.index clockTime
    pulsesBuf := Function.update s.pulsesBuf s.index pulses
    index := nextIndex s.index
    noSamples := if s.noSamples < 4 then s.noSamples + 1 else s.noSamples }

/-- `MotorSensor::frequency()`: 0 until the buffer holds 4 samples, else
`(newest - oldest pulses) * 1000 / (newest - oldest timestamp)` with
`last = (_index + SPEED_BUFFER_SIZE - 1) % SPEED_BUFFER_SIZE` the newest
slot and `_index` the oldest. -/
def MotorSensor.frequency (s : MotorSensor) : ℚ :=
  if s.noSamples < 4 then 0
  else
    let last : Fin 4 := ⟨(s.index.val + 4 - 1) % 4, Nat.mod_lt _ (by omega)⟩
    let dp : ℤ := s.pulsesBuf last - s.pulsesBuf s.index
    let dt : ℕ := usub (s.timestamp last) (s.timestamp s.index)
    (dp : ℚ) * 1000 / (dt : ℚ)

/-- `MotorSensor::polling(unsigned long clockTime)`: edge detection from
the sensed `level`, then either a sample update or — after more than
`STOP_TIME = 500` ms measured from `_prevTime` — a buffer reset. Note that
`_prevTime` is only written by `begin`/`reset` and by this reset branch
itself, never when a sample is recorded. -/
def MotorSensor.polling (s : MotorSensor) (level : Bool) (clockTime : ℕ) : MotorSensor :=
  let dPulse : ℤ := if level ≠ s.pulse then (if s.forward then 1 else -1) else 0
  let s1 := { s with pulse := level }
  let dt := usub clockTime s.prevTime
  if dPulse ≠ 0 then s1.update dPulse clockTime
  else if 500 < dt then { s1 with noSamples := 0, index := 0, prevTime := clockTime }
  else s1

/-- Fold a list of `(dPulse, clockTime)` samples through `update`. -/
def runSamples (s : MotorSensor) (l : List (ℤ × ℕ)) : MotorSensor :=
  l.foldl (fun st q => st.update q.1 q.2) s

/-- Cumulative pulse count after the first `k` samples of `l`. -/
def cumPulses (l : List (ℤ × ℕ)) (k : ℕ) : ℤ := ((l.take k).map Prod.fst).sum
theorem cumPulses_append_le (xs : List (ℤ × ℕ)) (q : ℤ × ℕ) (k : ℕ) (hk : k ≤ xs.length) :
    cumPulses (xs ++ [q]) k = cumPulses xs k := by
  unfold cumPulses
  rw [List.take_append_of_le_length hk]

theorem cumPulses_append_succ (xs : List (ℤ × ℕ)) (q : ℤ × ℕ) :
    cumPulses (xs ++ [q]) (xs.length + 1) = cumPulses xs xs.length + q.1 := by
  unfold cumPulses
  rw [show xs.length + 1 = (xs ++ [q]).length by simp, List.take_length, List.take_length]
  simp

theorem runSamples_append (s : MotorSensor) (xs : List (ℤ × ℕ)) (q : ℤ × ℕ) :
    runSamples s (xs ++ [q]) = (runSamples s xs).update q.1 q.2 := by
  unfold runSamples
  rw [List.foldl_append]
  rfl

theorem runSamples_invariant (l : List (ℤ × ℕ)) (s0 : MotorSensor) (t0 : ℕ) :
    (runSamples (s0.reset t0) l).index.val = l.length % 4 ∧
    (runSamples (s0.reset t0) l).noSamples = min l.length 4 ∧
    (runSamples (s0.reset t0) l).pulses = cumPulses l l.length ∧
    (runSamples (s0.reset t0) l).prevTime = t0 ∧
    ∀ m, m < l.length → l.length - m ≤ 4 →
      (runSamples (s0.reset t0) l).pulsesBuf ⟨m % 4, by omega⟩ = cumPulses l (m + 1) ∧
      (runSamples (s0.reset t0) l).timestamp ⟨m % 4, by omega⟩ = (l.getD m (0, 0)).2 := by
  induction l using List.reverseRecOn with
  | nil =>
      refine ⟨rfl, rfl, rfl, rfl, ?_⟩
      intro m hm
      exact absurd hm (by simp)
  | append_singleton xs q ih =>
      obtain ⟨hidx, hns, hpul, hprev, hbuf⟩ := ih
      rw [runSamples_append]
      set S := runSamples (s0.reset t0) xs with hS
      have hlen : (xs ++ [q]).length = xs.length + 1 := by simp
      unfold MotorSensor.update
      refine ⟨?_, ?_, ?_, ?_, ?_⟩
      · show (nextIndex S.index).val = (xs ++ [q]).length % 4
        unfold nextIndex
        simp only [hlen]
        omega
      · show (if S.noSamples < 4 then S.noSamples + 1 else S.noSamples) = min (xs ++ [q]).length 4
        rw [hns, hlen]
        split_ifs with h <;> omega
      · show S.pulses + q.1 = cumPulses (xs ++ [q]) (xs ++ [q]).length
        rw [hpul, hlen, cumPulses_append_succ]
      · exact hprev
      · intro m hm hm4
        rw [hlen] at hm hm4
        rcases Nat.lt_succ_iff_lt_or_eq.mp hm with hlt | heq
        · -- an older sample, in a slot distinct from the overwritten one
          have hne : (⟨m % 4, by omega⟩ : Fin 4) ≠ S.index := by
            apply Fin.ne_of_val_ne
            rw [hidx]
            show m % 4 ≠ xs.length % 4
            omega
          constructor
          · show Function.update S.pulsesBuf S.index (S.pulses + q.1) ⟨m % 4, by omega⟩ =
              cumPulses (xs ++ [q]) (m + 1)
            rw [Function.update_noteq hne, cumPulses_append_le xs q (m + 1) (by omega)]
            exact (hbuf m hlt (by omega)).1
          · show Function.update S.timestamp S.index q.2 ⟨m % 4, by omega⟩ =
              ((xs ++ [q]).getD m (0, 0)).2
            rw [Function.update_noteq hne, List.getD_append _ _ _ _ hlt]
            exact (hbuf m hlt (by omega)).2
        · -- the new sample, written at the old write index
          subst heq
          have heqidx : (⟨xs.length % 4, by omega⟩ : Fin 4) = S.index := by
            apply Fin.ext
            rw [hidx]
          constructor
          · show Function.update S.pulsesBuf S.index (S.pulses + q.1) ⟨xs.length % 4, by omega⟩ =
              cumPulses (xs ++ [q]) (xs.length + 1)
            rw [heqidx, Function.update_same, hpul, cumPulses_append_succ]
          · show Function.update S.timestamp S.index q.2 ⟨xs.length % 4, by omega⟩ =
              ((xs ++ [q]).getD xs.length (0, 0)).2
            rw [heqidx, Function.update_same,
              List.getD_append_right _ _ _ _ (le_refl _)]
            simp

/-- C5: starting from `reset`, `frequency()` is 0 while fewer than
`SPEED_BUFFER_SIZE = 4` samples have been recorded; once `4 ≤ n` samples
`(dPulse_i, t_i)` have been recorded (with genuinely increasing timestamps
below the 32-bit wrap), it returns
`(newest.pulseCount − oldest.pulseCount) · 1000 / (newest.t − oldest.t)`
where the newest buffered sample is the last one recorded (cumulative count
after sample `n`) and the oldest buffered one is the fourth-newest
(cumulative count after sample `n−3`), located by index arithmetic mod 4. -/
theorem frequency_of_runSamples (s0 : MotorSensor) (t0 : ℕ) (l : List (ℤ × ℕ)) :
    (l.length < 4 → (runSamples (s0.reset t0) l).frequency = 0) ∧
    (4 ≤ l.length →
      (∀ i < l.length, ∀ j < l.length, i < j → (l.getD i (0, 0)).2 < (l.getD j (0, 0)).2) →
      (∀ i < l.length, (l.getD i (0, 0)).2 < M32) →
      (runSamples (s0.reset t0) l).frequency =
        ((cumPulses l l.length - cumPulses l (l.length - 4 + 1) : ℤ) : ℚ) * 1000 /
          (((l.getD (l.length - 1) (0, 0)).2 - (l.getD (l.length - 4) (0, 0)).2 : ℕ) : ℚ)) := by
  obtain ⟨hidx, hns, hpul, hprev, hbuf⟩ := runSamples_invariant l s0 t0
  set S := runSamples (s0.reset t0) l with hS
  constructor
  · intro hlt
    unfold MotorSensor.frequency
    rw [if_pos (by rw [hns]; omega)]
  · intro h4 hmono hbound
    unfold MotorSensor.frequency
    rw [if_neg (by rw [hns]; omega)]
    have hlast : (⟨(S.index.val + 4 - 1) % 4, Nat.mod_lt _ (by omega)⟩ : Fin 4) =
        (⟨(l.length - 1) % 4, by omega⟩ : Fin 4) := by
      apply Fin.ext
      show (S.index.val + 4 - 1) % 4 = (l.length - 1) % 4
      rw [hidx]
      omega
    have holdest : S.index = (⟨(l.length - 4) % 4, by omega⟩ : Fin 4) := by
      apply Fin.ext
      rw [hidx]
      show l.length % 4 = (l.length - 4) % 4
      omega
    obtain ⟨hbNew, htNew⟩ := hbuf (l.length - 1) (by omega) (by omega)
    obtain ⟨hbOld, htOld⟩ := hbuf (l.length - 4) (by omega) (by omega)
    have hm1 : l.length - 1 + 1 = l.length := by omega
    have hm4 : l.length - 4 + 1 = l.length - 3 := by omega
    rw [hm1] at hbNew
    simp only [hlast, hbNew, htNew]
    rw [holdest]
    simp only [hbOld, htOld]
    have hts : (l.getD (l.length - 4) (0, 0)).2 < (l.getD (l.length - 1) (0, 0)).2 :=
      hmono _ (by omega) _ (by omega) (by omega)
    rw [usub_of_le (le_of_lt hts) (hbound _ (by omega))]

/-- A concrete sensor state used to instantiate the sensor theorems. -/
def zeroSensor : MotorSensor :=
  ⟨false, 0, true, 0, 0, 0, fun _ => 0, fun _ => 0⟩

/-- C5 witness: the theorem applied to one sample (fewer than 4: frequency
is 0) and to four samples `+1` pulse at t = 100, 200, 300, 400: frequency
is `(4 - 1) · 1000 / (400 - 100) = 10` pulses per second. -/
theorem frequency_of_runSamples_witness :
    (([((1:ℤ), (100:ℕ))].length < 4) ∧
        (runSamples (zeroSensor.reset 0) [((1:ℤ), (100:ℕ))]).frequency = 0) ∧
      ((4 ≤ ([((1:ℤ),(100:ℕ)), (1,200), (1,300), (1,400)]).length ∧
          (∀ i < ([((1:ℤ),(100:ℕ)), (1,200), (1,300), (1,400)]).length,
            ∀ j < ([((1:ℤ),(100:ℕ)), (1,200), (1,300), (1,400)]).length, i < j →
              (([((1:ℤ),(100:ℕ)), (1,200), (1,300), (1,400)]).getD i (0, 0)).2 <
                (([((1:ℤ),(100:ℕ)), (1,200), (1,300), (1,400)]).getD j (0, 0)).2) ∧
          (∀ i < ([((1:ℤ),(100:ℕ)), (1,200), (1,300), (1,400)]).length,
            (([((1:ℤ),(100:ℕ)), (1,200), (1,300), (1,400)]).getD i (0, 0)).2 < M32)) ∧
        (runSamples (zeroSensor.reset 0) [((1:ℤ),(100:ℕ)), (1,200), (1,300), (1,400)]).frequency =
          ((cumPulses [((1:ℤ),(100:ℕ)), (1,200), (1,300), (1,400)] 4 -
              cumPulses [((1:ℤ),(100:ℕ)), (1,200), (1,300), (1,400)] (4 - 4 + 1) : ℤ) : ℚ) * 1000 /
            (((([((1:ℤ),(100:ℕ)), (1,200), (1,300), (1,400)]).getD (4 - 1) (0, 0)).2 -
                (([((1:ℤ),(100:ℕ)), (1,200), (1,300), (1,400)]).getD (4 - 4) (0, 0)).2 : ℕ) : ℚ)) :=
  ⟨⟨by decide, (frequency_of_runSamples zeroSensor 0 [((1:ℤ), (100:ℕ))]).1 (by decide)⟩,
    ⟨⟨by decide, by decide, by decide⟩,
      (frequency_of_runSamples zeroSensor 0 [((1:ℤ),(100:ℕ)), (1,200), (1,300), (1,400)]).2
        (by decide) (by decide) (by decide)⟩⟩

/-- Saturating sample count over a run of updates. -/
theorem noSamples_runSamples (l : List (ℤ × ℕ)) (s : MotorSensor)
    (h : s.noSamples ≤ 4) :
    (runSamples s l).noSamples = min (s.noSamples + l.length) 4 := by
  induction l generalizing s with
  | nil =>
      show s.noSamples = min (s.noSamples + 0) 4
      omega
  | cons q rest ih =>
      show (runSamples (s.update q.1 q.2) rest).noSamples = min (s.noSamples + (rest.length + 1)) 4
      have hup : (s.update q.1 q.2).noSamples =
          if s.noSamples < 4 then s.noSamples + 1 else s.noSamples := rfl
      rw [ih (s.update q.1 q.2) (by rw [hup]; split_ifs <;> omega), hup]
      split_ifs <;> omega

/-- The four-sample warm buffer of the C10 scenario: reset at `t = 0`,
then `+1` pulses recorded at `t = 100, 200, 300, 400`. -/
def c10state : MotorSensor :=
  runSamples (zeroSensor.reset 0) [(1, 100), (1, 200), (1, 300), (1, 400)]

/-- C10 counterexample: the stall timeout is measured from `_prevTime`,
which sample recording never updates — it still holds the reset time 0.
So a single edge-free poll at `t = 501` wipes the warm buffer although the
last recorded sample is only 101 ms old (` ≤ STOP_TIME = 500`): frequency
drops from 10 to 0, where the claim ("more than STOP_TIME since the last
recorded sample") says no reset may happen yet. -/
theorem motorSensor_stall_reset_counterexample :
    c10state.pulse = false ∧
      c10state.timestamp 3 = 400 ∧
      c10state.frequency = 10 ∧
      usub 501 400 ≤ 500 ∧
      (c10state.polling false 501).noSamples = 0 ∧
      (c10state.polling false 501).index = 0 ∧
      (c10state.polling false 501).prevTime = 501 ∧
      (c10state.polling false 501).frequency = 0 := by
  refine ⟨rfl, by decide, ?_, by decide, ?_, ?_, ?_, ?_⟩ <;>
    simp +decide [c10state, zeroSensor, runSamples, MotorSensor.reset, MotorSensor.update,
      MotorSensor.polling, MotorSensor.frequency, nextIndex, usub, M32, Function.update] <;>
    norm_num

/-- C10 (amended): when `polling` sees no pulse edge and more than
`STOP_TIME = 500` ms have elapsed since `_prevTime` — the time of the last
stall reset (or of `begin`/`reset`), NOT the time of the last recorded
sample — the sample count and write index are reset and `_prevTime` is set
to the current clock, so `frequency()` returns the cold-start value 0 and
keeps returning 0 until 4 fresh samples accumulate. -/
theorem motorSensor_stall_reset (s : MotorSensor) (level : Bool) (clockTime : ℕ)
    (hlev : level = s.pulse) (hdt : 500 < usub clockTime s.prevTime) :
    (s.polling level clockTime).noSamples = 0 ∧
      (s.polling level clockTime).index = 0 ∧
      (s.polling level clockTime).prevTime = clockTime ∧
      (s.polling level clockTime).frequency = 0 ∧
      ∀ l : List (ℤ × ℕ), l.length < 4 →
        (runSamples (s.polling level clockTime) l).frequency = 0 := by
  have hpoll : s.polling level clockTime =
      { s with pulse := level, noSamples := 0, index := 0, prevTime := clockTime } := by
    unfold MotorSensor.polling
    rw [hlev]
    simp only [ne_eq, not_true_eq_false, if_false, ite_not]
    rw [if_pos hdt]
  rw [hpoll]
  refine ⟨rfl, rfl, rfl, ?_, ?_⟩
  · unfold MotorSensor.frequency
    rw [if_pos (by norm_num)]
  · intro l hl
    unfold MotorSensor.frequency
    rw [if_pos ?_]
    rw [noSamples_runSamples l _ (by norm_num)]
    simp only []
    omega

/-- C10 witness: the amended theorem applied to the fresh sensor
(`_prevTime = 0`) polled without an edge at `t = 501`. -/
theorem motorSensor_stall_reset_witness :
    (false = zeroSensor.pulse ∧ 500 < usub 501 zeroSensor.prevTime) ∧
      ((zeroSensor.polling false 501).noSamples = 0 ∧
        (zeroSensor.polling false 501).index = 0 ∧
        (zeroSensor.polling false 501).prevTime = 501 ∧
        (zeroSensor.polling false 501).frequency = 0 ∧
        ∀ l : List (ℤ × ℕ), l.length < 4 →
          (runSamples (zeroSensor.polling false 501) l).frequency = 0) :=
  ⟨⟨rfl, by decide⟩, motorSensor_stall_reset zeroSensor false 501 rfl (by decide)⟩

/-! ## `MotionSensor::update` (`src/Arduino/Wheelly/MotionSensor.cpp`, lines 74-116)

The odometry step. `sinf`/`cosf` are modelled as function parameters
`sinF`/`cosF`, and the float constant `ANGLE_PER_PULSE =
DISTANCE_PER_PULSE / TRACK` as the parameter `app`; `p` is the `PI`
parameter of `normalRad`. -/

structure Odometry where
  angle : ℚ
  xPulses : ℚ
  yPulses : ℚ

/-- The body of `MotionSensor::update` acting on the pose, with the wheel
deltas `_dl`, `_dr` as arguments:
```c
float sa = sinf(_angle); float ca = cosf(_angle);
float ds = ((float)(_dl + _dr)) / 2;
_xPulses += ca * ds; _yPulses += sa * ds;
_angle = normalRad(_angle + (_dl - _dr) * ANGLE_PER_PULSE);
``` -/
def Odometry.update (st : Odometry) (p : ℚ) (hp : 0 < p) (sinF cosF : ℚ → ℚ)
    (app : ℚ) (dl dr : ℤ) : Odometry :=
  let sa := sinF st.angle
  let ca := cosF st.angle
  let ds : ℚ := ((dl : ℤ) + dr : ℤ) / 2
  { xPulses := st.xPulses + ca * ds
    yPulses := st.yPulses + sa * ds
    angle := normalRad p hp (st.angle + ((dl : ℤ) - dr : ℤ) * app) }

/-- C6: for every pose whose heading satisfies the component's
normalization invariant, `update` with `deltaLeft = deltaRight = 1` leaves
the heading unchanged and advances `(x, y)` by one pulse-distance along the
heading (`x += cos(heading)`, `y += sin(heading)` in pulse units), and
`update` with `deltaLeft = 1, deltaRight = -1` leaves `x, y` unchanged and
turns the heading by `2 · anglePerPulse`, then normalizes it. -/
theorem odometry_update_straight_and_turn (p : ℚ) (hp : 0 < p)
    (sinF cosF : ℚ → ℚ) (app : ℚ) (st : Odometry)
    (h1 : -p ≤ st.angle) (h2 : st.angle < p) :
    ((st.update p hp sinF cosF app 1 1).angle = st.angle ∧
      (st.update p hp sinF cosF app 1 1).xPulses = st.xPulses + cosF st.angle ∧
      (st.update p hp sinF cosF app 1 1).yPulses = st.yPulses + sinF st.angle) ∧
    ((st.update p hp sinF cosF app 1 (-1)).xPulses = st.xPulses ∧
      (st.update p hp sinF cosF app 1 (-1)).yPulses = st.yPulses ∧
      (st.update p hp sinF cosF app 1 (-1)).angle =
        normalRad p hp (st.angle + 2 * app)) := by
  unfold Odometry.update
  refine ⟨⟨?_, ?_, ?_⟩, ?_, ?_, ?_⟩
  · show normalRad p hp (st.angle + ((1 : ℤ) - 1 : ℤ) * app) = st.angle
    norm_num
    exact normalRad_id p hp st.angle h1 h2
  · show st.xPulses + cosF st.angle * (((1 : ℤ) + 1 : ℤ) / 2) = st.xPulses + cosF st.angle
    norm_num
  · show st.yPulses + sinF st.angle * (((1 : ℤ) + 1 : ℤ) / 2) = st.yPulses + sinF st.angle
    norm_num
  · show st.xPulses + cosF st.angle * (((1 : ℤ) + (-1) : ℤ) / 2) = st.xPulses
    norm_num
  · show st.yPulses + sinF st.angle * (((1 : ℤ) + (-1) : ℤ) / 2) = st.yPulses
    norm_num
  · show normalRad p hp (st.angle + ((1 : ℤ) - (-1) : ℤ) * app) =
      normalRad p hp (st.angle + 2 * app)
    norm_num

/-- C6 witness: the theorem applied at `p = 3`, `sinF = cosF = id`,
`anglePerPulse = 1/7`, pose `(angle, x, y) = (1/2, 2, 3)`. -/
theorem odometry_update_straight_and_turn_witness :
    ((0 : ℚ) < 3 ∧ -(3 : ℚ) ≤ (Odometry.mk (1/2) 2 3).angle ∧
      (Odometry.mk (1/2) 2 3).angle < 3) ∧
      ((((Odometry.mk (1/2) 2 3).update 3 (by norm_num) id id (1/7) 1 1).angle =
            (Odometry.mk (1/2) 2 3).angle ∧
          ((Odometry.mk (1/2) 2 3).update 3 (by norm_num) id id (1/7) 1 1).xPulses =
            (Odometry.mk (1/2) 2 3).xPulses + id (Odometry.mk (1/2) 2 3).angle ∧
          ((Odometry.mk (1/2) 2 3).update 3 (by norm_num) id id (1/7) 1 1).yPulses =
            (Odometry.mk (1/2) 2 3).yPulses + id (Odometry.mk (1/2) 2 3).angle) ∧
        (((Odometry.mk (1/2) 2 3).update 3 (by norm_num) id id (1/7) 1 (-1)).xPulses =
            (Odometry.mk (1/2) 2 3).xPulses ∧
          ((Odometry.mk (1/2) 2 3).update 3 (by norm_num) id id (1/7) 1 (-1)).yPulses =
            (Odometry.mk (1/2) 2 3).yPulses ∧
          ((Odometry.mk (1/2) 2 3).update 3 (by norm_num) id id (1/7) 1 (-1)).angle =
            normalRad 3 (by norm_num) ((Odometry.mk (1/2) 2 3).angle + 2 * (1/7)))) :=
  ⟨⟨by norm_num, by norm_num, by norm_num⟩,
    odometry_update_straight_and_turn 3 (by norm_num) id id (1/7)
      (Odometry.mk (1/2) 2 3) (by norm_num) (by norm_num)⟩

/-! ## `MotionCtrl` (`src/Arduino/Wheelly/MotionCtr.cpp`)

`MOTOR_SAFE_INTERVAL = 1000`, `MOTOR_CHECK_INTERVAL = 300`,
`MAX_PPS = 60`, `FEEDBACK_GAIN = 2`, `ON_DIRECTION_RAD = 90·PI/180`,
`LINEAR_DIRECTION_RAD = 30·PI/180`.

The wheel sensors are external inputs here: each poll carries a
`SensorEnv` with the flag `edge` (the sensors recorded a pulse delta this
tick, raising `onChange` → `handleMotion`) and the current readings
`angle`, `leftPps`, `rightPps`. The timers' registered callbacks
(`halt()` for the watchdog, `handleMotion(millis())` for the check timer)
are inlined at the call sites of `Timer::polling`, after the timer's own
state update, exactly as the source invokes them. -/

structure SensorEnv where
  edge : Bool
  angle : ℚ
  leftPps : ℚ
  rightPps : ℚ

structure MotionCtrl where
  direction : ℚ
  speed : ℚ
  halted : Bool
  left : ℚ
  right : ℚ
  leftPins : ℤ × ℤ
  rightPins : ℤ × ℤ
  leftX : Fin 5 → ℚ
  leftY : Fin 5 → ℚ
  rightX : Fin 5 → ℚ
  rightY : Fin 5 → ℚ
  stopTimer : Timer
  checkTimer : Timer
  prevTime : ℕ

/-- `MotorCtrl::speed(float value)`: the pair of `analogWrite` values
`(forward pin, backward pin)` driven by a motor for the commanded value,
after the `func` correction (`MAX_VALUE = 255`). -/
def motorPins (xx yy : Fin 5 → ℚ) (value : ℚ) : ℤ × ℤ :=
  let pwd := MotorCtrl.func xx yy value
  if value = 0 then (0, 0)
  else if 0 < value then (round (pwd * 255), 0)
  else (0, -(round (pwd * 255)))

/-- `MotionCtrl::power(float left, float right)`: per-wheel feedback
(`power = clamp(cmd + (cmd - pps/MAX_PPS)·FEEDBACK_GAIN, -1, 1)`, with
feedback suppressed at zero command) followed by the motor writes. The
sensor reads `_sensors.leftPps()`, `_sensors.rightPps()` are the arguments
`leftPps`, `rightPps`; they are only read in the nonzero-command branches. -/
def MotionCtrl.power (s : MotionCtrl) (leftPps rightPps : ℚ) (left right : ℚ) : MotionCtrl :=
  let s1 := { s with left := left, right := right }
  let leftPwr : ℚ :=
    if s1.left ≠ 0 then amin (amax (left + (left - leftPps / 60) * 2) (-1)) 1 else 0
  let rightPwr : ℚ :=
    if s1.right ≠ 0 then amin (amax (right + (right - rightPps / 60) * 2) (-1)) 1 else 0
  { s1 with
    leftPins := motorPins s1.leftX s1.leftY leftPwr
    rightPins := motorPins s1.rightX s1.rightY rightPwr }

/-- `MotionCtrl::halt()`: zero the target speed, enter the halted state,
zero both motor outputs (`power(0, 0)` — the pps reads are irrelevant
because both commanded values are 0), stop both timers. -/
def MotionCtrl.halt (s : MotionCtrl) : MotionCtrl :=
  let s1 := { s with speed := 0, halted := true }
  let s2 := s1.power 0 0 0 0
  { s2 with stopTimer := s2.stopTimer.stop, checkTimer := s2.checkTimer.stop }

/-- `MotionCtrl::handleMotion(unsigned long clockTime)`: the control step.
Skipped while halted or when no time elapsed since `_prevTime` (which the
source never updates). -/
def MotionCtrl.handleMotion (s : MotionCtrl) (p : ℚ) (hp : 0 < p)
    (clockTime : ℕ) (angle leftPps rightPps : ℚ) : MotionCtrl :=
  let dt := usub clockTime s.prevTime
  if s.halted = false ∧ 0 < dt then
    let dir := angle
    let toDir := s.direction
    let turn := normalRad p hp (toDir - dir)
    let isCw := fuzzyPositive turn (90 * p / 180)
    let isCcw := fuzzyPositive (-turn) (90 * p / 180)
    let isLin := 1 - fuzzyPositive |turn| (30 * p / 180)
    let cwSpeed := (cwBlend isCw isCcw).defuzzy
    let linSpeed := (linBlend (cwBlend isCw isCcw) s.speed isLin).defuzzy
    let left := linSpeed + cwSpeed
    let right := linSpeed - cwSpeed
    let mx := amax (amax |left| |right|) 1
    s.power leftPps rightPps (left / mx) (right / mx)
  else s

/-- `MotionCtrl::move(float direction, float speed)` at clock value `now`:
store the targets; from `Halted` start both timers and leave the halted
state; while `Moving` refresh the watchdog and re-run the control step
immediately. -/
def MotionCtrl.move (s : MotionCtrl) (p : ℚ) (hp : 0 < p)
    (direction speed : ℚ) (now : ℕ) (angle leftPps rightPps : ℚ) : MotionCtrl :=
  let s1 := { s with direction := direction, speed := speed }
  if s1.halted then
    { s1 with halted := false,
              stopTimer := s1.stopTimer.startAt now,
              checkTimer := s1.checkTimer.startAt now }
  else
    let s2 := { s1 with stopTimer := s1.stopTimer.restart now }
    s2.handleMotion p hp now angle leftPps rightPps

/-- `_sensors.polling(clockTime)` as seen by the controller: when the
sensors record a pulse delta this tick, the `onChange` hook runs the
control step at `clockTime`. -/
def MotionCtrl.sensorStep (s : MotionCtrl) (p : ℚ) (hp : 0 < p)
    (clockTime : ℕ) (env : SensorEnv) : MotionCtrl :=
  if env.edge then s.handleMotion p hp clockTime env.angle env.leftPps env.rightPps
  else s

/-- `_stopTimer.polling(clockTime)`: the timer state advances first; a
firing then invokes the registered watchdog callback, `halt()`. -/
def MotionCtrl.stopStep (s : MotionCtrl) (clockTime : ℕ) : MotionCtrl :=
  let fired := s.stopTimer.running && decide (s.stopTimer.next ≤ clockTime)
  let s2 := { s with stopTimer := s.stopTimer.polling clockTime }
  if fired then s2.halt else s2

/-- `_checkTimer.polling(clockTime)`: a firing invokes the check-timer
callback, `handleMotion(millis())`. -/
def MotionCtrl.checkStep (s : MotionCtrl) (p : ℚ) (hp : 0 < p)
    (clockTime : ℕ) (env : SensorEnv) : MotionCtrl :=
  let fired := s.checkTimer.running && decide (s.checkTimer.next ≤ clockTime)
  let s2 := { s with checkTimer := s.checkTimer.polling clockTime }
  if fired then s2.handleMotion p hp clockTime env.angle env.leftPps env.rightPps
  else s2

/-- `MotionCtrl::polling(unsigned long clockTime)`: sensor poll (possible
edge → control step), then the watchdog timer, then the check timer. -/
def MotionCtrl.polling (s : MotionCtrl) (p : ℚ) (hp : 0 < p)
    (clockTime : ℕ) (env : SensorEnv) : MotionCtrl :=
  (((s.sensorStep p hp clockTime env).stopStep clockTime).checkStep p hp clockTime env)

/-- Modelled from the spec: the `isMoving()` accessor of §6 — true exactly
in the `Moving` state, i.e. when the controller is not halted. The source
revision under `src` has the `_halt` flag but no such accessor. -/
def MotionCtrl.isMoving (s : MotionCtrl) : Bool := !s.halted

/-- Fold a list of `(clockTime, sensor readings)` polls through `polling`. -/
def runCtrl (p : ℚ) (hp : 0 < p) (s : MotionCtrl) (polls : List (ℕ × SensorEnv)) : MotionCtrl :=
  polls.foldl (fun st q => st.polling p hp q.1 q.2) s
theorem motorPins_zero (xx yy : Fin 5 → ℚ) : motorPins xx yy 0 = (0, 0) := by
  unfold motorPins
  rw [if_pos rfl]

theorem halt_spec (s : MotionCtrl) :
    s.halt = { s with
      speed := 0
      halted := true
      left := 0
      right := 0
      leftPins := (0, 0)
      rightPins := (0, 0)
      stopTimer := s.stopTimer.stop
      checkTimer := s.checkTimer.stop } := by
  unfold MotionCtrl.halt MotionCtrl.power
  simp only [ne_eq, not_true_eq_false, if_neg (by norm_num : ¬((0:ℚ) ≠ 0)), motorPins_zero,
    if_false, ite_false]

theorem halt_idem (s : MotionCtrl) : s.halt.halt = s.halt := by
  rw [halt_spec s, halt_spec]
  simp only [Timer.stop]

theorem power_preserves (s : MotionCtrl) (lp rp l r : ℚ) :
    (s.power lp rp l r).halted = s.halted ∧
      (s.power lp rp l r).speed = s.speed ∧
      (s.power lp rp l r).direction = s.direction ∧
      (s.power lp rp l r).stopTimer = s.stopTimer ∧
      (s.power lp rp l r).checkTimer = s.checkTimer ∧
      (s.power lp rp l r).prevTime = s.prevTime :=
  ⟨rfl, rfl, rfl, rfl, rfl, rfl⟩

theorem handleMotion_preserves (s : MotionCtrl) (p : ℚ) (hp : 0 < p)
    (ct : ℕ) (a lp rp : ℚ) :
    (s.handleMotion p hp ct a lp rp).halted = s.halted ∧
      (s.handleMotion p hp ct a lp rp).speed = s.speed ∧
      (s.handleMotion p hp ct a lp rp).direction = s.direction ∧
      (s.handleMotion p hp ct a lp rp).stopTimer = s.stopTimer ∧
      (s.handleMotion p hp ct a lp rp).checkTimer = s.checkTimer ∧
      (s.handleMotion p hp ct a lp rp).prevTime = s.prevTime := by
  simp only [MotionCtrl.handleMotion]
  split_ifs with h
  · exact power_preserves s _ _ _ _
  · exact ⟨rfl, rfl, rfl, rfl, rfl, rfl⟩

theorem sensorStep_preserves (s : MotionCtrl) (p : ℚ) (hp : 0 < p)
    (ct : ℕ) (env : SensorEnv) :
    (s.sensorStep p hp ct env).halted = s.halted ∧
      (s.sensorStep p hp ct env).stopTimer = s.stopTimer ∧
      (s.sensorStep p hp ct env).checkTimer = s.checkTimer := by
  unfold MotionCtrl.sensorStep
  split_ifs with h
  · obtain ⟨h1, _, _, h4, h5, _⟩ := handleMotion_preserves s p hp ct env.angle env.leftPps env.rightPps
    exact ⟨h1, h4, h5⟩
  · exact ⟨rfl, rfl, rfl⟩

theorem checkStep_preserves (s : MotionCtrl) (p : ℚ) (hp : 0 < p)
    (ct : ℕ) (env : SensorEnv) :
    (s.checkStep p hp ct env).halted = s.halted ∧
      (s.checkStep p hp ct env).stopTimer = s.stopTimer := by
  simp only [MotionCtrl.checkStep]
  split_ifs with h
  · obtain ⟨h1, _, _, h4, _, _⟩ := handleMotion_preserves
      { s with checkTimer := s.checkTimer.polling ct } p hp ct env.angle env.leftPps env.rightPps
    exact ⟨h1, h4⟩
  · exact ⟨rfl, rfl⟩

/-- An armed, unexpired watchdog does not change during `Timer::polling`. -/
theorem timer_polling_unexpired (t : Timer) (c : ℕ)
    (hc : ¬ t.next ≤ c) : t.polling c = t := by
  unfold Timer.polling
  by_cases hr : t.running
  · rw [if_pos hr, if_neg hc]
  · rw [if_neg hr]

theorem stopStep_unexpired (s : MotionCtrl) (c : ℕ)
    (hc : ¬ s.stopTimer.next ≤ c) : s.stopStep c = s := by
  simp only [MotionCtrl.stopStep]
  rw [timer_polling_unexpired s.stopTimer c hc]
  have hfired : (s.stopTimer.running && decide (s.stopTimer.next ≤ c)) = false := by
    rw [decide_eq_false hc]
    exact Bool.and_false _
  rw [hfired]
  simp only [Bool.false_eq_true, if_false, ite_false]

theorem polling_preserves_armed (s : MotionCtrl) (p : ℚ) (hp : 0 < p)
    (c : ℕ) (env : SensorEnv)
    (hh : s.halted = false) (hc : ¬ s.stopTimer.next ≤ c) :
    (s.polling p hp c env).halted = false ∧
      (s.polling p hp c env).stopTimer = s.stopTimer := by
  unfold MotionCtrl.polling
  obtain ⟨e1, e2, _⟩ := sensorStep_preserves s p hp c env
  rw [stopStep_unexpired _ c (by rw [e2]; exact hc)]
  obtain ⟨k1, k2⟩ := checkStep_preserves (s.sensorStep p hp c env) p hp c env
  rw [k1, k2, e1, e2]
  exact ⟨hh, rfl⟩

theorem runCtrl_preserves_armed (p : ℚ) (hp : 0 < p) (polls : List (ℕ × SensorEnv))
    (s : MotionCtrl)
    (hh : s.halted = false)
    (hpolls : ∀ q ∈ polls, ¬ s.stopTimer.next ≤ q.1) :
    (runCtrl p hp s polls).halted = false ∧
      (runCtrl p hp s polls).stopTimer = s.stopTimer := by
  induction polls generalizing s with
  | nil => exact ⟨hh, rfl⟩
  | cons q rest ih =>
      have hstep := polling_preserves_armed s p hp q.1 q.2 hh
        (hpolls q (List.mem_cons_self _ _))
      have hrest : ∀ r ∈ rest, ¬ (s.polling p hp q.1 q.2).stopTimer.next ≤ r.1 := by
        intro r hr
        rw [hstep.2]
        exact hpolls r (List.mem_cons_of_mem _ hr)
      have := ih (s.polling p hp q.1 q.2) hstep.1 hrest
      rw [hstep.2] at this
      exact this

theorem timer_polling_stopped (t : Timer) (c : ℕ) (hr : t.running = false) :
    t.polling c = t := by
  unfold Timer.polling
  rw [hr]
  simp only [Bool.false_eq_true, if_false, ite_false]

theorem polling_fires_watchdog (s : MotionCtrl) (p : ℚ) (hp : 0 < p)
    (c : ℕ) (env : SensorEnv)
    (hrun : s.stopTimer.running = true)
    (hc : s.stopTimer.next ≤ c) :
    s.polling p hp c env =
      ({ s.sensorStep p hp c env with
          stopTimer := (s.sensorStep p hp c env).stopTimer.polling c }).halt := by
  unfold MotionCtrl.polling
  obtain ⟨e1, e2, e3⟩ := sensorStep_preserves s p hp c env
  set u := s.sensorStep p hp c env with hu
  have hfired : (u.stopTimer.running && decide (u.stopTimer.next ≤ c)) = true := by
    rw [e2, hrun, decide_eq_true hc]
    rfl
  simp only [MotionCtrl.stopStep]
  rw [hfired]
  simp only [if_true, ite_true]
  set s3 := ({ u with stopTimer := u.stopTimer.polling c }).halt with hs3
  have hck : s3.checkTimer.running = false := by
    rw [hs3, halt_spec]
    rfl
  simp only [MotionCtrl.checkStep]
  rw [hck]
  simp only [Bool.false_and, Bool.false_eq_true, if_false, ite_false]
  rw [timer_polling_stopped _ c hck]

/-- C9: from a halted controller whose watchdog has interval
`MOTOR_SAFE_INTERVAL = 1000`, a `move` at `t0` arms the watchdog for
`t0 + 1000`; with no further `move`, any number of polls before that
deadline leave the watchdog armed, and the first poll at or past the
deadline halts the controller: `isMoving()` is false, the target speed is
0, both commanded wheel values and both motor pin outputs are zero, both
timers are stopped — and this halted state is a fixed point of `halt()`. -/
theorem motionCtrl_watchdog_halts (p : ℚ) (hp : 0 < p) (s : MotionCtrl)
    (dir spd : ℚ) (t0 : ℕ) (a0 l0 r0 : ℚ) (polls : List (ℕ × SensorEnv))
    (tF : ℕ) (envF : SensorEnv) (sF : MotionCtrl)
    (hhalted : s.halted = true)
    (hsi : s.stopTimer.interval = 1000)
    (hov : t0 + 1000 < M32)
    (hpolls : ∀ q ∈ polls, q.1 < t0 + 1000)
    (htF : t0 + 1000 ≤ tF)
    (hfin : sF = (runCtrl p hp (s.move p hp dir spd t0 a0 l0 r0) polls).polling p hp tF envF) :
    sF.halted = true ∧ sF.isMoving = false ∧ sF.speed = 0 ∧
      sF.left = 0 ∧ sF.right = 0 ∧ sF.leftPins = (0, 0) ∧ sF.rightPins = (0, 0) ∧
      sF.stopTimer.running = false ∧ sF.checkTimer.running = false ∧
      sF.halt = sF := by
  have hmove : (s.move p hp dir spd t0 a0 l0 r0).halted = false ∧
      (s.move p hp dir spd t0 a0 l0 r0).stopTimer.next = t0 + 1000 ∧
      (s.move p hp dir spd t0 a0 l0 r0).stopTimer.running = true := by
    unfold MotionCtrl.move
    rw [if_pos hhalted]
    refine ⟨rfl, ?_, rfl⟩
    show (t0 + s.stopTimer.interval) % M32 = t0 + 1000
    rw [hsi]
    exact Nat.mod_eq_of_lt hov
  have harmed := runCtrl_preserves_armed p hp polls (s.move p hp dir spd t0 a0 l0 r0)
    hmove.1 (by
      intro q hq
      rw [hmove.2.1]
      exact Nat.not_le.mpr (hpolls q hq))
  have hfire := polling_fires_watchdog (runCtrl p hp (s.move p hp dir spd t0 a0 l0 r0) polls)
    p hp tF envF
    (by rw [harmed.2]; exact hmove.2.2)
    (by rw [harmed.2, hmove.2.1]; exact htF)
  rw [hfin, hfire]
  refine ⟨?_, ?_, ?_, ?_, ?_, ?_, ?_, ?_, ?_, halt_idem _⟩ <;> rw [halt_spec] <;> rfl

/-- The `PROGMEM` calibration tables of `MotionCtr.cpp` (decimal literals
as exact rationals). -/
def leftXCorrection : Fin 5 → ℚ := ![-1, -6055/100000, 0, 2311/100000, 1]

def leftYCorrection : Fin 5 → ℚ := ![-1, -30432/100000, 0, 12577/100000, 1]

def rightXCorrection : Fin 5 → ℚ := ![-1, -3759/100000, 0, 2041/100000, 1]

def rightYCorrection : Fin 5 → ℚ := ![-1, -2667/10000, 0, 12648/100000, 1]

/-- The controller after the constructor and `begin()`: correction tables
loaded, watchdog interval `MOTOR_SAFE_INTERVAL = 1000` (one-shot), check
interval `MOTOR_CHECK_INTERVAL = 300` (continuous), then `halt()`. -/
def initialMotionCtrl : MotionCtrl :=
  MotionCtrl.halt
    { direction := 0
      speed := 0
      halted := true
      left := 0
      right := 0
      leftPins := (0, 0)
      rightPins := (0, 0)
      leftX := leftXCorrection
      leftY := leftYCorrection
      rightX := rightXCorrection
      rightY := rightYCorrection
      stopTimer := Timer.mk 1000 false 0 0 false
      checkTimer := Timer.mk 300 true 0 0 false
      prevTime := 0 }

/-- The C9 witness run: `move(0, 1/2)` at `t0 = 0` from the initial halted
controller, no intermediate polls, one poll at the watchdog deadline
`t0 + MOTOR_SAFE_INTERVAL = 1000` with no pulse edge. -/
def watchdogRun : MotionCtrl :=
  (runCtrl 3 (by norm_num) (initialMotionCtrl.move 3 (by norm_num) 0 (1/2) 0 0 0 0)
    []).polling 3 (by norm_num) 1000 ⟨false, 0, 0, 0⟩

/-- C9 witness: the theorem applied to that concrete run. -/
theorem motionCtrl_watchdog_halts_witness :
    (initialMotionCtrl.halted = true ∧ initialMotionCtrl.stopTimer.interval = 1000 ∧
        0 + 1000 < M32 ∧ (∀ q ∈ ([] : List (ℕ × SensorEnv)), q.1 < 0 + 1000) ∧
        0 + 1000 ≤ 1000) ∧
      (watchdogRun.halted = true ∧ watchdogRun.isMoving = false ∧ watchdogRun.speed = 0 ∧
        watchdogRun.left = 0 ∧ watchdogRun.right = 0 ∧ watchdogRun.leftPins = (0, 0) ∧
        watchdogRun.rightPins = (0, 0) ∧ watchdogRun.stopTimer.running = false ∧
        watchdogRun.checkTimer.running = false ∧ watchdogRun.halt = watchdogRun) :=
  ⟨⟨rfl, rfl, by norm_num [M32], by simp, by norm_num⟩,
    motionCtrl_watchdog_halts 3 (by norm_num) initialMotionCtrl 0 (1/2) 0 0 0 0 []
      1000 ⟨false, 0, 0, 0⟩ watchdogRun rfl rfl (by norm_num [M32]) (by simp)
      (by norm_num) rfl⟩
